import Mathlib

/-!
Verification of the launch-pad job-search pipeline: query building
(`src/lib/queryBuilder.ts`), tiered site selection and final query assembly
(`src/lib/googleSearch.ts`, `searchJobs`), site registry
(`src/lib/jobSites.config.ts`), and result filtering/scoring
(`jobResultsFilter.ts`).

Modelling conventions:
* TypeScript strings are Lean `String`s; the JS string operations used by the
  source (`includes`, `toLowerCase`, `trim`, `substring`, `split`, `join`,
  `replace`, `match`-count) are modelled by the `js*` helpers below, defined
  on the underlying `List Char`.  `toLowerCase`/`trim`/`\s` agree with JS on
  the ASCII inputs the vocabulary lists consist of.
* Optional (`?:`) fields become `Option`; JS truthiness tests of the form
  `x && x.length > 0` are modelled by `(x.getD []).length > 0` (an absent
  array and a present empty array are both falsy there), and array truthiness
  alone (`x && ...` where `[]` is truthy) keeps the `Option` `match`.
* JS numbers in the relevance score are modelled by `ℚ` (the score arithmetic
  is exact small-denominator rational arithmetic).
* `Array.prototype.sort` with a consistent comparator is a stable sort; it is
  modelled by the structurally recursive stable insertion sort `sortLe`,
  whose result is the unique stable ordering, hence equal to the JS result.
-/

/-- JS `String.prototype.includes`: substring occurrence test, via the
char-list prefix scan `subOccurs`. -/
def isPrefixList : List Char → List Char → Bool
  | [], _ => true
  | _ :: _, [] => false
  | a :: as, b :: bs => a == b && isPrefixList as bs

/-- Does `pat` occur as a contiguous substring of the text? -/
def subOccurs (pat : List Char) : List Char → Bool
  | [] => isPrefixList pat []
  | t :: ts => isPrefixList pat (t :: ts) || subOccurs pat ts

/-- JS `s.includes(sub)`. -/
def jsIncludes (s sub : String) : Bool := subOccurs sub.data s.data

/-- JS `s.toLowerCase()` (ASCII-faithful). -/
def jsToLower (s : String) : String := ⟨s.data.map Char.toLower⟩

/-- JS `s.trim()` (whitespace at both ends removed). -/
def jsTrim (s : String) : String :=
  ⟨((s.data.dropWhile Char.isWhitespace).reverse.dropWhile Char.isWhitespace).reverse⟩

/-- JS `s.substring(0, n)`. -/
def jsSubstrTo (s : String) (n : Nat) : String := ⟨s.data.take n⟩

/-- JS `s.length` (the sources only ever measure ASCII text). -/
def jsLength (s : String) : Nat := s.data.length

/-- JS `s.replace(/[<>]/g, '')`. -/
def jsRemoveAngles (s : String) : String :=
  ⟨s.data.filter (fun c => !(c == '<' || c == '>'))⟩

/-- JS `arr.join(sep)`. -/
def joinSep (sep : String) : List String → String
  | [] => ""
  | [x] => x
  | x :: y :: xs => x ++ sep ++ joinSep sep (y :: xs)

/-- Splitting a char list at whitespace characters (JS `split`): fragments
between whitespace characters, empties included.  Relative to `split(/\s+/)`
this only adds empty fragments, which every consumer in the source discards
via a `length > 2` filter. -/
def splitWsAux : List Char → List Char → List String
  | [], acc => [⟨acc.reverse⟩]
  | c :: cs, acc =>
    if c.isWhitespace then ⟨acc.reverse⟩ :: splitWsAux cs []
    else splitWsAux cs (c :: acc)

/-- JS `s.split(/\s+/)`, up to empty fragments (see `splitWsAux`). -/
def jsSplitWs (s : String) : List String := splitWsAux s.data []

/-- Stable insertion: put `a` in front of the first element `b` with
`le a b`.  Earlier elements are inserted later, so ties keep input order. -/
def insertLe (le : α → α → Bool) (a : α) : List α → List α
  | [] => [a]
  | b :: bs => if le a b then a :: b :: bs else b :: insertLe le a bs

/-- Stable sort by the total preorder `le` (models JS `Array.sort` with a
consistent comparator). -/
def sortLe (le : α → α → Bool) : List α → List α
  | [] => []
  | a :: as => insertLe le a (sortLe le as)

theorem insertLe_perm (le : α → α → Bool) (a : α) (l : List α) :
    List.Perm (insertLe le a l) (a :: l) := by
  induction l with
  | nil => simp [insertLe]
  | cons b bs ih =>
    simp only [insertLe]
    split
    · exact List.Perm.refl _
    · exact (List.Perm.cons b ih).trans (List.Perm.swap a b bs)

theorem sortLe_perm (le : α → α → Bool) (l : List α) : List.Perm (sortLe le l) l := by
  induction l with
  | nil => simp [sortLe]
  | cons a as ih => exact (insertLe_perm le a (sortLe le as)).trans (ih.cons a)

theorem mem_insertLe {le : α → α → Bool} {a x : α} {l : List α}
    (h : x ∈ insertLe le a l) : x = a ∨ x ∈ l :=
  by simpa using (insertLe_perm le a l).mem_iff.mp h

theorem pairwise_insertLe (le : α → α → Bool)
    (htrans : ∀ {a b c}, le a b = true → le b c = true → le a c = true)
    (htot : ∀ a b, le a b = true ∨ le b a = true)
    (a : α) (l : List α) (hl : l.Pairwise (fun x y => le x y = true)) :
    (insertLe le a l).Pairwise (fun x y => le x y = true) := by
  induction l with
  | nil => simp [insertLe]
  | cons b bs ih =>
    rcases List.pairwise_cons.mp hl with ⟨hb, hbs⟩
    simp only [insertLe]
    split
    case isTrue hab =>
      refine List.pairwise_cons.mpr ⟨?_, hl⟩
      intro y hy
      rcases List.mem_cons.mp hy with rfl | hy
      · exact hab
      · exact htrans hab (hb y hy)
    case isFalse hab =>
      have hba : le b a = true := by
        rcases htot a b with h | h
        · exact absurd h hab
        · exact h
      refine List.pairwise_cons.mpr ⟨?_, ih hbs⟩
      intro y hy
      rcases mem_insertLe hy with rfl | hy
      · exact hba
      · exact hb y hy

theorem pairwise_sortLe (le : α → α → Bool)
    (htrans : ∀ {a b c}, le a b = true → le b c = true → le a c = true)
    (htot : ∀ a b, le a b = true ∨ le b a = true)
    (l : List α) : (sortLe le l).Pairwise (fun x y => le x y = true) := by
  induction l with
  | nil => simp [sortLe]
  | cons a as ih => exact pairwise_insertLe le htrans htot a (sortLe le as) ih

theorem str_data_append (a b : String) : (a ++ b).data = a.data ++ b.data := by
  cases a; cases b; rfl

theorem isPrefixList_append (pat l u : List Char) (h : isPrefixList pat l = true) :
    isPrefixList pat (l ++ u) = true := by
  induction pat generalizing l with
  | nil => simp [isPrefixList]
  | cons a as ih =>
    cases l with
    | nil => simp [isPrefixList] at h
    | cons b bs =>
      simp only [isPrefixList, Bool.and_eq_true] at h ⊢
      exact ⟨h.1, ih bs h.2⟩

theorem isPrefixList_self (l u : List Char) : isPrefixList l (l ++ u) = true := by
  induction l with
  | nil => simp [isPrefixList]
  | cons a as ih => simp [isPrefixList, ih]

theorem subOccurs_append_right (pat t u : List Char) (h : subOccurs pat t = true) :
    subOccurs pat (t ++ u) = true := by
  induction t with
  | nil =>
    simp only [subOccurs] at h
    cases pat with
    | nil => cases u <;> simp [subOccurs, isPrefixList]
    | cons a as => simp [isPrefixList] at h
  | cons c cs ih =>
    simp only [subOccurs, Bool.or_eq_true] at h ⊢
    rcases h with h | h
    · exact Or.inl (isPrefixList_append pat (c :: cs) u h)
    · exact Or.inr (ih h)

theorem subOccurs_append_left (pat t u : List Char) (h : subOccurs pat u = true) :
    subOccurs pat (t ++ u) = true := by
  induction t with
  | nil => simpa using h
  | cons c cs ih => simp only [List.cons_append, subOccurs, List.append_eq, ih, Bool.or_true]

theorem subOccursMid (pat x y : List Char) :
    subOccurs pat (x ++ (pat ++ y)) = true := by
  apply subOccurs_append_left
  cases pat with
  | nil => cases y <;> simp [subOccurs, isPrefixList]
  | cons a as =>
    have h : isPrefixList (a :: as) ((a :: as) ++ y) = true := isPrefixList_self _ y
    rw [List.cons_append] at h
    rw [List.cons_append, subOccurs, h, Bool.true_or]

theorem subOccurs_singleton (c : Char) (l : List Char) :
    subOccurs [c] l = true ↔ c ∈ l := by
  induction l with
  | nil => simp [subOccurs, isPrefixList]
  | cons t ts ih =>
    rw [subOccurs]
    simp only [isPrefixList, Bool.and_true, Bool.or_eq_true, beq_iff_eq, ih, List.mem_cons]

/-! ## Query builder (`src/lib/queryBuilder.ts`) -/

/-- Model of `QueryBuilderConfig` (queryBuilder.ts); destructuring defaults inlined. -/
structure QueryBuilderConfig where
  enhanceJobTerms : Bool := true
  addLocationQuotes : Bool := true
  strictExperienceLevel : Bool := false
  customJobKeywords : List String := []

/-- The filter object consumed by `buildSearchQuery`/`isSpecificSearch`
(the `JobSearchFilters` shape with `location`, `experienceLevel`, `jobType`
as a single string, and `selectedSites`, as declared where the query builder
is called). -/
structure QBFilters where
  location : Option String := none
  experienceLevel : Option String := none
  jobType : Option String := none
  selectedSites : Option (List String) := none

def JOB_KEYWORDS : List String :=
  ["job", "career", "position", "opening", "hiring", "employment", "vacancy"]

def JOB_QUALITY_INDICATORS : List String :=
  ["apply", "job description", "requirements", "qualifications", "years of experience"]

def EXPERIENCE_LEVEL_QUERIES : List (String × List String) :=
  [("entry", ["entry level", "junior", "graduate", "new grad", "associate"]),
   ("mid", ["mid level", "experienced", "3-5 years", "senior", "intermediate"]),
   ("senior", ["senior", "lead", "5+ years", "principal", "director", "manager"])]

def JOB_TYPE_QUERIES : List (String × List String) :=
  [("full-time", ["full time", "fulltime", "permanent"]),
   ("part-time", ["part time", "parttime", "temporary"]),
   ("contract", ["contract", "contractor", "freelance", "consulting"]),
   ("internship", ["intern", "internship", "co-op", "co op"])]

def REMOTE_WORK_TERMS : List String :=
  ["remote", "work from home", "WFH", "telecommute", "distributed"]

/-- Model of `hasJobKeywords` (queryBuilder.ts). -/
def hasJobKeywords (query : String) : Bool :=
  JOB_KEYWORDS.any fun keyword => jsIncludes (jsToLower query) keyword

/-- Model of `enhanceBaseQuery` (queryBuilder.ts). -/
def enhanceBaseQuery (query : String) (config : QueryBuilderConfig := {}) : String :=
  if !config.enhanceJobTerms then jsTrim query
  else
    let enhancedQuery := jsTrim query
    let allJobKeywords := JOB_KEYWORDS ++ config.customJobKeywords
    let enhancedQuery :=
      if !hasJobKeywords enhancedQuery then
        enhancedQuery ++ " (" ++ joinSep " OR " (allJobKeywords.take 5) ++ ")"
      else enhancedQuery
    enhancedQuery ++ " (" ++ joinSep " OR " (JOB_QUALITY_INDICATORS.take 3) ++ ")"

/-- Model of `buildLocationQuery` (queryBuilder.ts). -/
def buildLocationQuery (location : String) (config : QueryBuilderConfig := {}) : String :=
  if jsTrim location == "" then ""
  else if config.addLocationQuotes then " location:\"" ++ jsTrim location ++ "\""
  else " location:" ++ jsTrim location

/-- Model of `buildExperienceLevelQuery` (queryBuilder.ts). -/
def buildExperienceLevelQuery (experienceLevel : Option String)
    (config : QueryBuilderConfig := {}) : String :=
  match experienceLevel with
  | none => ""
  | some level =>
    match (EXPERIENCE_LEVEL_QUERIES.find? (fun p => p.1 == level)) with
    | none => ""
    | some p =>
      let terms := p.2
      if config.strictExperienceLevel then
        let strictTerms := terms.filter fun term =>
          jsIncludes term "level" || jsIncludes term "years"
        if strictTerms.length > 0 then
          " (" ++ joinSep " OR " (strictTerms.map fun term => "\"" ++ term ++ "\"") ++ ")"
        else " (" ++ joinSep " OR " (terms.map fun term => "\"" ++ term ++ "\"") ++ ")"
      else " (" ++ joinSep " OR " (terms.map fun term => "\"" ++ term ++ "\"") ++ ")"

/-- Model of `buildJobTypeQuery` (queryBuilder.ts). -/
def buildJobTypeQuery (jobTypes : List String) : String :=
  if jobTypes.isEmpty then ""
  else
    let typeQueries := (jobTypes.filter fun t => (JOB_TYPE_QUERIES.find? (fun p => p.1 == t)).isSome).map
      fun t =>
        let terms := ((JOB_TYPE_QUERIES.find? (fun p => p.1 == t)).map Prod.snd).getD []
        "(" ++ joinSep " OR " terms ++ ")"
    if typeQueries.length > 0 then " (" ++ joinSep " OR " typeQueries ++ ")" else ""

/-- Model of `buildSiteQuery` (queryBuilder.ts). -/
def buildSiteQuery (sites : List String) : String :=
  if sites.isEmpty then ""
  else " (" ++ joinSep " OR " (sites.map fun site => "site:" ++ site) ++ ")"

/-- Model of `buildExclusionQuery` (queryBuilder.ts lines 182-204): the base
exclusions always stay; broad ones are added for non-specific searches; a
caller-supplied list is appended after them. -/
def buildExclusionQuery (customExclusions : List String := [])
    (isSpecificSearch : Bool := false) : String :=
  let baseExclusions := ["wikipedia", "\"about us\"", "\"our company\""]
  let broadExclusions := ["blog", "news", "\"press release\"", "\"company profile\"", "investor"]
  let exclusions := baseExclusions
  let exclusions := if !isSpecificSearch then exclusions ++ broadExclusions else exclusions
  let exclusions := if customExclusions.length > 0 then exclusions ++ customExclusions else exclusions
  if exclusions.length > 0 then
    " " ++ joinSep " " (exclusions.map fun term => "-" ++ term)
  else ""

/-- Model of `isSpecificSearch` (queryBuilder.ts lines 209-216): specificity from the
raw query text, the location filter, and the selected-site count. -/
def isSpecificSearch (query : String) (filters : QBFilters) : Bool :=
  jsIncludes query "\"" ||
    (filters.location.getD "" != "" && jsTrim (filters.location.getD "") != "") ||
    (match filters.selectedSites with
     | some ss => decide (ss.length ≤ 2)
     | none => false)

/-- Model of `buildSearchQuery` (queryBuilder.ts). -/
def buildSearchQuery (baseQuery : String) (filters : QBFilters := {})
    (customExclusions : List String := []) (config : QueryBuilderConfig := {}) : String :=
  let searchQuery := enhanceBaseQuery baseQuery config
  let searchQuery :=
    if filters.location.getD "" != "" then
      searchQuery ++ buildLocationQuery (filters.location.getD "") config
    else searchQuery
  let searchQuery := searchQuery ++ buildExperienceLevelQuery filters.experienceLevel config
  let searchQuery :=
    if filters.jobType.getD "" != "" then
      searchQuery ++ buildJobTypeQuery [filters.jobType.getD ""]
    else searchQuery
  let specificSearch := isSpecificSearch baseQuery filters
  searchQuery ++ buildExclusionQuery customExclusions specificSearch

/-- Result record of `validateSearchQuery`. -/
structure ValidationResult where
  isValid : Bool
  sanitized : String
  errors : List String
deriving DecidableEq, Repr

/-- Model of `validateSearchQuery` (queryBuilder.ts lines 251-289).  The imperative
`errors.push` sequence is written as list appends in the same order; the
shadowed `sanitized`/`errors` variables get numbered names. -/
def validateSearchQuery (query : String) : ValidationResult :=
  if jsLength (jsTrim query) == 0 then
    { isValid := false, sanitized := "", errors := ["Search query cannot be empty"] }
  else
    let errors1 : List String :=
      if jsLength (jsTrim query) < 2 then ["Search query must be at least 2 characters long"]
      else []
    let errors2 := errors1 ++
      (if jsLength (jsTrim query) > 200 then ["Search query is too long (maximum 200 characters)"]
       else [])
    let sanitized2 :=
      if jsLength (jsTrim query) > 200 then jsSubstrTo (jsTrim query) 200 else jsTrim query
    let sanitized3 := jsRemoveAngles sanitized2
    let quoteCount := sanitized3.data.count '"'
    let errors3 := errors2 ++
      (if quoteCount % 2 != 0 then ["Unbalanced quotes in search query"] else [])
    { isValid := errors3.isEmpty, sanitized := sanitized3, errors := errors3 }

/-! ## Site registry (`src/lib/jobSites.config.ts`) -/

inductive SiteCategory | general | tech | remote | startup | executive
deriving DecidableEq, Repr

/-- Model of `JobSiteConfig` (jobSites.config.ts). -/
structure JobSiteConfig where
  domain : String
  name : String
  category : SiteCategory
  description : String
  enabled : Bool
  priority : Nat
deriving DecidableEq, Repr

/-- Model of `DEFAULT_JOB_SITES` (jobSites.config.ts). -/
def DEFAULT_JOB_SITES : List JobSiteConfig :=
  [⟨"linkedin.com", "LinkedIn", .general, "Professional networking and job search platform", true, 5⟩,
   ⟨"indeed.com", "Indeed", .general, "One of the largest job search engines", true, 5⟩,
   ⟨"glassdoor.com", "Glassdoor", .general, "Job search with company reviews and salary info", true, 4⟩,
   ⟨"monster.com", "Monster", .general, "Global employment website", true, 3⟩,
   ⟨"ziprecruiter.com", "ZipRecruiter", .general, "Online employment marketplace", true, 4⟩,
   ⟨"dice.com", "Dice", .tech, "Technology professionals job board", true, 5⟩,
   ⟨"stackoverflow.com/jobs", "Stack Overflow Jobs", .tech, "Developer-focused job board", true, 4⟩,
   ⟨"angel.co", "AngelList", .startup, "Startup jobs and investment platform", true, 4⟩,
   ⟨"remote.co", "Remote.co", .remote, "Remote work job board", true, 4⟩,
   ⟨"weworkremotely.com", "We Work Remotely", .remote, "Remote-only job board", true, 4⟩,
   ⟨"flexjobs.com", "FlexJobs", .remote, "Flexible and remote job opportunities", true, 3⟩,
   ⟨"simplyhired.com", "SimplyHired", .general, "Job search engine aggregator", true, 3⟩,
   ⟨"careerbuilder.com", "CareerBuilder", .general, "Job search and career advice platform", true, 3⟩,
   ⟨"themuse.com", "The Muse", .general, "Career advice and job search platform", true, 3⟩,
   ⟨"jobs.lever.co", "Lever Jobs", .startup, "Modern companies using Lever ATS", true, 3⟩]

/-- Model of `getEnabledJobSites` (jobSites.config.ts): enabled sites sorted by
descending priority (stable JS sort with comparator `b.priority - a.priority`). -/
def getEnabledJobSites (sites : List JobSiteConfig := DEFAULT_JOB_SITES) : List JobSiteConfig :=
  sortLe (fun a b => decide (b.priority ≤ a.priority)) (sites.filter (·.enabled))

/-! ## Final query assembly and tiered site selection
(`src/lib/googleSearch.ts`, `searchJobs`) -/

inductive UserTier | free | premium | enterprise
deriving DecidableEq, Repr

inductive SJJobType | fullTime | partTime | contract | internship
deriving DecidableEq, Repr

inductive SJExperienceLevel | entry | mid | senior
deriving DecidableEq, Repr

/-- Model of `JobSearchFilters` (googleSearch.ts).  `remote` is a JS optional boolean
whose only use is a truthiness test, so it is modelled as a `Bool` defaulting
to `false`. -/
structure SJFilters where
  location : Option String := none
  remote : Bool := false
  jobType : List SJJobType := []
  experienceLevel : Option SJExperienceLevel := none
  sites : Option (List String) := none
  enabledSiteCategories : Option (List SiteCategory) := none

/-- The `jobTypeMap` literal inside `searchJobs`. -/
def sjJobTypeMap : SJJobType → String
  | .fullTime => "full time OR fulltime"
  | .partTime => "part time OR parttime"
  | .contract => "contract OR contractor OR freelance"
  | .internship => "intern OR internship"

/-- The `jobKeywords` literal inside `searchJobs` (googleSearch.ts line 139). -/
def sjJobKeywords : List String :=
  ["job", "career", "position", "opening", "hiring", "employment", "vacancy"]

/-- The `hasJobKeyword` test inside `searchJobs` (googleSearch.ts lines 140-142). -/
def sjHasJobKeyword (searchQuery : String) : Bool :=
  sjJobKeywords.any fun keyword => jsIncludes (jsToLower searchQuery) keyword

/-- Model of `searchJobs` steps at googleSearch.ts lines 131-150: trim the query, add
the job-keyword disjunction when no job keyword is present, then always add
the quality-indicator disjunction. -/
def sjEnhanceQuery (query : String) : String :=
  let searchQuery := jsTrim query
  let searchQuery :=
    if !sjHasJobKeyword searchQuery then
      searchQuery ++ " (job OR position OR hiring OR career OR opening)"
    else searchQuery
  searchQuery ++ " (apply OR \"job description\" OR requirements OR qualifications OR \"years of experience\")"

/-- Model of `searchJobs` steps at googleSearch.ts lines 152-188: the filter clauses
appended after `sjEnhanceQuery`.  The result is the `searchQuery` variable as
it stands when exclusions are decided (site restrictions are kept separate). -/
def sjEnhancedQueryFull (query : String) (filters : SJFilters) : String :=
  let searchQuery := sjEnhanceQuery query
  let searchQuery :=
    if filters.location.getD "" != "" then
      searchQuery ++ " location:\"" ++ filters.location.getD "" ++ "\""
    else searchQuery
  let searchQuery :=
    if filters.remote then searchQuery ++ " (remote OR \"work from home\" OR WFH)"
    else searchQuery
  let searchQuery :=
    match filters.experienceLevel with
    | none => searchQuery
    | some .entry => searchQuery ++ " (\"entry level\" OR junior OR graduate OR \"new grad\")"
    | some .mid => searchQuery ++ " (\"mid level\" OR experienced OR \"3-5 years\")"
    | some .senior => searchQuery ++ " (senior OR lead OR \"5+ years\" OR principal)"
  let searchQuery :=
    if filters.jobType.length > 0 then
      searchQuery ++ " (" ++
        joinSep " OR " (filters.jobType.map fun t => "(" ++ sjJobTypeMap t ++ ")") ++ ")"
    else searchQuery
  searchQuery

/-- The `isSpecificSearch` test inside `searchJobs` (googleSearch.ts lines
253-255).  Note it inspects `searchQuery` — the already-enhanced query — not
the raw user query. -/
def sjIsSpecificSearch (searchQuery : String) (filters : SJFilters) : Bool :=
  jsIncludes searchQuery "\"" ||
    (filters.location.getD "" != "" && jsTrim (filters.location.getD "") != "") ||
    (match filters.sites with
     | some ss => decide (ss.length ≤ 2)
     | none => false)

/-- The exclusion suffix appended to `finalQuery` by `searchJobs`
(googleSearch.ts lines 246-265). -/
def sjExclusionSuffix (searchQuery : String) (filters : SJFilters)
    (customExclusions : Option (List String)) (useExclusions : Bool) : String :=
  if useExclusions then
    if ((customExclusions.getD []).length > 0) then
      " " ++ joinSep " " ((customExclusions.getD []).map fun term => "-" ++ term)
    else
      if sjIsSpecificSearch searchQuery filters then
        " -wikipedia -\"about us\" -\"our company\""
      else
        " -wikipedia -\"about us\" -\"our company\" -blog -news -\"press release\" -\"company profile\" -investor"
  else ""

/-- The `targetSites` resolution inside `searchJobs` (googleSearch.ts lines
193-234), for the `useSiteOperator` branch: custom sites win, then the user's
selected sites, then a category filter, then the tier defaults. -/
def sjResolveTargetSites (customSites : Option (List String)) (filters : SJFilters)
    (userTier : UserTier) : List String :=
  if (customSites.getD []).length > 0 then customSites.getD []
  else if ((filters.sites.getD []).length > 0) then filters.sites.getD []
  else
    let availableSites := getEnabledJobSites DEFAULT_JOB_SITES
    if ((filters.enabledSiteCategories.getD []).length > 0) then
      (availableSites.filter fun site =>
        (filters.enabledSiteCategories.getD []).contains site.category).map (·.domain)
    else
      match userTier with
      | .free =>
        ((availableSites.filter fun site => site.category == .general).take 5).map (·.domain)
      | .premium => (availableSites.take 10).map (·.domain)
      | .enterprise => availableSites.map (·.domain)

/-- Model of `getAvailableSitesForTier` (googleSearch.ts lines 503-516; the `default`
arm is unreachable for the three-valued tier enum). -/
def getAvailableSitesForTier (tier : UserTier := .free) : List JobSiteConfig :=
  let allSites := getEnabledJobSites DEFAULT_JOB_SITES
  match tier with
  | .free => (allSites.filter fun site => site.category == .general).take 5
  | .premium => allSites.take 10
  | .enterprise => allSites

/-! ## Result filter and scorer (`jobResultsFilter.ts`) -/

/-- Model of `JobResultItem` (jobResultsFilter.ts): raw search result fields. -/
structure JobResultItem where
  title : Option String := none
  snippet : Option String := none
  link : Option String := none
deriving DecidableEq, Repr

/-- Model of `JobResultWithScore` (jobResultsFilter.ts): item plus the transient
relevance score. -/
structure JobResultWithScore extends JobResultItem where
  relevanceScore : ℚ
deriving DecidableEq, Repr

/-- Model of `FilteringConfig` (jobResultsFilter.ts); destructuring defaults inlined. -/
structure FilteringConfig where
  strictMode : Bool := false
  customJobIndicators : List String := []
  customNonJobIndicators : List String := []
  enableURLFiltering : Bool := true
  enableContentFiltering : Bool := true

def JOB_INDICATORS : List String :=
  ["job", "position", "career", "hiring", "employment", "vacancy", "opening",
   "apply", "application", "candidate", "qualifications", "requirements",
   "experience", "skills", "responsibilities", "duties", "salary", "benefits",
   "join", "seeking", "looking for", "we are hiring", "job description",
   "years of experience", "full time", "part time", "remote", "onsite",
   "hire", "recruit", "team", "role", "opportunity"]

def NON_JOB_INDICATORS : List String :=
  ["wikipedia", "about us", "our company", "company history", "leadership team",
   "news article", "press release", "blog post", "interview with", "profile of", "biography",
   "stock price", "earnings", "financial", "quarterly results", "investor", "annual report",
   "home page", "contact us", "privacy policy", "terms of service", "cookie policy",
   "site map", "help center", "faq"]

def JOB_SITE_PATTERNS : List String :=
  ["linkedin.com/jobs", "indeed.com", "glassdoor.com", "monster.com",
   "dice.com", "ziprecruiter.com", "careerbuilder.com", "simplyhired.com",
   "remote.co", "weworkremotely.com", "stackoverflow.com/jobs",
   "angel.co", "wellfound.com", "jobs.", "careers.", "/careers/", "/jobs/",
   "workable.com", "greenhouse.io", "lever.co", "bamboohr.com"]

def STOP_WORDS : List String :=
  ["job", "position", "career", "and", "or", "the", "for", "in", "at",
   "with", "from", "by", "as", "to", "of", "a", "an", "is", "are", "was", "were"]

/-- Model of `extractQueryTerms` (jobResultsFilter.ts lines 386-395): lowercase,
whitespace-split, keep terms longer than 2 that are neither stop words nor
pure numbers. -/
def extractQueryTerms (originalQuery : String) : List String :=
  (jsSplitWs (jsToLower originalQuery)).filter fun term =>
    decide (jsLength term > 2) && !(STOP_WORDS.contains term) &&
      !(term.data.all Char.isDigit)

/-- Model of `hasRelevantQueryTerms` (jobResultsFilter.ts lines 400-411): vacuously
true when no query terms were extracted. -/
def hasRelevantQueryTerms (combinedText title : String) (queryTerms : List String) : Bool :=
  if queryTerms.length == 0 then true
  else queryTerms.any fun term => jsIncludes combinedText term || jsIncludes title term

/-- Model of `hasJobIndicators` (jobResultsFilter.ts). -/
def hasJobIndicators (combinedText url : String) (customIndicators : List String := []) : Bool :=
  (JOB_INDICATORS ++ customIndicators).any fun indicator =>
    jsIncludes combinedText indicator || jsIncludes url indicator

/-- Model of `hasNonJobIndicators` (jobResultsFilter.ts). -/
def hasNonJobIndicators (combinedText url : String)
    (customNonIndicators : List String := []) : Bool :=
  (NON_JOB_INDICATORS ++ customNonIndicators).any fun indicator =>
    jsIncludes combinedText indicator || jsIncludes url indicator

/-- Model of `isFromKnownJobSite` (jobResultsFilter.ts). -/
def isFromKnownJobSite (url : String) : Bool :=
  JOB_SITE_PATTERNS.any fun pattern => jsIncludes url pattern

/-- Model of `calculateRelevanceScore` (jobResultsFilter.ts lines 453-494). -/
def calculateRelevanceScore (item : JobResultItem) (originalQuery : String) : ℚ :=
  let title := jsToLower (item.title.getD "")
  let snippet := jsToLower (item.snippet.getD "")
  let url := jsToLower (item.link.getD "")
  let combinedText := title ++ " " ++ snippet
  let queryTerms := extractQueryTerms originalQuery
  let matchingTerms := queryTerms.filter fun term =>
    jsIncludes combinedText term || jsIncludes title term
  let score : ℚ := ((matchingTerms.length : ℚ) / (max queryTerms.length 1 : ℚ)) * 40
  let jobIndicatorMatches :=
    (JOB_INDICATORS.filter fun indicator => jsIncludes combinedText indicator).length
  let score := score + min ((jobIndicatorMatches : ℚ) * 5) 30
  let score := score + (if isFromKnownJobSite url then 20 else 0)
  let score := score +
    (if jsIncludes title "job" || jsIncludes title "position" || jsIncludes title "career"
     then 10 else 0)
  let nonJobMatches :=
    (NON_JOB_INDICATORS.filter fun indicator => jsIncludes combinedText indicator).length
  let score := score - (nonJobMatches : ℚ) * 15
  max 0 (min 100 score)

/-- The filter predicate inside `filterJobResults` (jobResultsFilter.ts lines
523-562), extracted as a named function. -/
def filterKeep (config : FilteringConfig) (queryTerms : List String)
    (item : JobResultWithScore) : Bool :=
  let title := jsToLower (item.title.getD "")
  let snippet := jsToLower (item.snippet.getD "")
  let url := jsToLower (item.link.getD "")
  let combinedText := title ++ " " ++ snippet
  let hasQueryTerms := hasRelevantQueryTerms combinedText title queryTerms
  if !hasQueryTerms && config.strictMode then false
  else
    let hasJobContent :=
      if config.enableContentFiltering then
        hasJobIndicators combinedText url config.customJobIndicators
      else true
    let hasNonJobContent :=
      if config.enableContentFiltering then
        hasNonJobIndicators combinedText url config.customNonJobIndicators
      else false
    let isFromJobSite :=
      if config.enableURLFiltering then isFromKnownJobSite url else false
    if config.strictMode then
      hasQueryTerms && (hasJobContent || isFromJobSite) && !hasNonJobContent &&
        decide ((30 : ℚ) ≤ item.relevanceScore)
    else
      hasQueryTerms && (hasJobContent || isFromJobSite) && !hasNonJobContent

/-- The scoring map inside `filterJobResults` (jobResultsFilter.ts lines
519-522): spread the item and attach its relevance score. -/
def scoreItem (originalQuery : String) (item : JobResultItem) : JobResultWithScore :=
  { toJobResultItem := item,
    relevanceScore := calculateRelevanceScore item originalQuery }

/-- Model of `filterJobResults` (jobResultsFilter.ts lines 499-569): score every item,
filter, sort by descending score (stable), then strip the transient score. -/
def filterJobResults (items : List JobResultItem) (originalQuery : String)
    (config : FilteringConfig := {}) : List JobResultItem :=
  if items.isEmpty then []
  else
    let queryTerms := extractQueryTerms originalQuery
    let scored := items.map (scoreItem originalQuery)
    let kept := scored.filter (filterKeep config queryTerms)
    let sorted := sortLe (fun a b => decide (b.relevanceScore ≤ a.relevanceScore)) kept
    sorted.map (·.toJobResultItem)

/-! ## Auxiliary lemmas -/

theorem isPrefixList_refl (l : List Char) : isPrefixList l l = true := by
  induction l with
  | nil => simp [isPrefixList]
  | cons a as ih => simp [isPrefixList, ih]

theorem jsIncludes_append_of_left (s t sub : String) (h : jsIncludes s sub = true) :
    jsIncludes (s ++ t) sub = true := by
  unfold jsIncludes at *
  rw [str_data_append]
  exact subOccurs_append_right _ _ _ h

theorem jsIncludes_append_of_right (s t sub : String) (h : jsIncludes t sub = true) :
    jsIncludes (s ++ t) sub = true := by
  unfold jsIncludes at *
  rw [str_data_append]
  exact subOccurs_append_left _ _ _ h

theorem jsIncludes_self (s : String) : jsIncludes s s = true := by
  unfold jsIncludes
  cases hs : s.data with
  | nil => simp [subOccurs, isPrefixList]
  | cons a as => simp [subOccurs, isPrefixList_refl]

theorem joinSep_cons_cons (sep x y : String) (xs : List String) :
    joinSep sep (x :: y :: xs) = x ++ sep ++ joinSep sep (y :: xs) := rfl

theorem truncStep_eq (s : String) :
    (if jsLength s > 200 then jsSubstrTo s 200 else s) = jsSubstrTo s 200 := by
  split
  · rfl
  · next hgt =>
    unfold jsSubstrTo
    rw [List.take_of_length_le (by unfold jsLength at hgt; omega)]

/-! ## Claim theorems -/

/-- C6: for every result item and original query, the relevance score
computed by `calculateRelevanceScore` lies in the closed interval
`[0, 100]` — the final clamp guarantees it is never negative and never
exceeds 100. -/
theorem relevanceScore_bounds (item : JobResultItem) (originalQuery : String) :
    0 ≤ calculateRelevanceScore item originalQuery ∧
      calculateRelevanceScore item originalQuery ≤ 100 := by
  unfold calculateRelevanceScore
  exact ⟨le_max_left 0 _, max_le (by norm_num) (min_le_left _ _)⟩

/-- C1 counterexample: a free-tier request that supplies neither
`customSites` nor `filters.sites` but does set
`enabledSiteCategories = ['general']` resolves to all 8 enabled general
sites, exceeding the free tier's cap of 5. -/
theorem tierCap_counterexample :
    (sjResolveTargetSites none { enabledSiteCategories := some [.general] } .free).length = 8 ∧
    ¬ (sjResolveTargetSites none
        { enabledSiteCategories := some [.general] } .free).length ≤ 5 := by
  exact ⟨by decide, by decide⟩

/-- C1 amended: when the caller supplies neither `customSites` nor
`filters.sites` nor a non-empty `enabledSiteCategories` list, the resolved
target-site set respects the tier caps (free ≤ 5, premium ≤ 10), and the
`getAvailableSitesForTier` helper obeys the same caps. -/
theorem tierCap_amended (customSites : Option (List String)) (filters : SJFilters)
    (hcs : customSites.getD [] = []) (hsites : filters.sites.getD [] = [])
    (hcat : filters.enabledSiteCategories.getD [] = []) :
    (sjResolveTargetSites customSites filters .free).length ≤ 5 ∧
    (sjResolveTargetSites customSites filters .premium).length ≤ 10 ∧
    (getAvailableSitesForTier .free).length ≤ 5 ∧
    (getAvailableSitesForTier .premium).length ≤ 10 := by
  refine ⟨?_, ?_, by decide, by decide⟩ <;>
  · simp only [sjResolveTargetSites, hcs, hsites, hcat, List.length_nil, gt_iff_lt,
      Nat.lt_irrefl, if_false, List.length_map, List.length_take]
    omega

theorem tierCap_amended_witness :
    (sjResolveTargetSites none {} .free).length ≤ 5 ∧
    (sjResolveTargetSites none {} .premium).length ≤ 10 ∧
    (getAvailableSitesForTier .free).length ≤ 5 ∧
    (getAvailableSitesForTier .premium).length ≤ 10 :=
  tierCap_amended none {} rfl rfl rfl

theorem sjEnhanceQuery_contains_quote (query : String) :
    jsIncludes (sjEnhanceQuery query) "\"" = true := by
  unfold sjEnhanceQuery
  exact jsIncludes_append_of_right _ _ _ (by decide)

theorem sjEnhanceQuery_quote_mem (query : String) :
    '"' ∈ (sjEnhanceQuery query).data := by
  simp only [sjEnhanceQuery]
  rw [str_data_append]
  refine List.mem_append_right _ ?_
  decide

theorem sjEnhancedQueryFull_contains_quote (query : String) (filters : SJFilters) :
    jsIncludes (sjEnhancedQueryFull query filters) "\"" = true := by
  have h0 := sjEnhanceQuery_quote_mem query
  have hmem : '"' ∈ (sjEnhancedQueryFull query filters).data := by
    obtain ⟨loc, rem, jt, exp, sites, cats⟩ := filters
    simp only [sjEnhancedQueryFull]
    repeat' split
    all_goals (try simp only [str_data_append, List.mem_append])
    all_goals simp [h0]
  have hq : ("\"" : String).data = ['"'] := rfl
  unfold jsIncludes
  rw [hq]
  exact (subOccurs_singleton '"' _).mpr hmem

/-- C2 counterexample: for the raw query `software engineer` with no
location and no site selection, the classification the spec describes
(`isSpecificSearch` on the raw query) says "broad", yet `searchJobs`
classifies the request as specific — its `isSpecificSearch` test runs on
the already-enhanced query, which always contains a quote — and therefore
appends only the minimal exclusion set instead of the broad one. -/
theorem specificity_counterexample :
    isSpecificSearch "software engineer" {} = false ∧
    sjIsSpecificSearch (sjEnhancedQueryFull "software engineer" {}) {} = true ∧
    sjExclusionSuffix (sjEnhancedQueryFull "software engineer" {}) {} none true =
      " -wikipedia -\"about us\" -\"our company\"" ∧
    (" -wikipedia -\"about us\" -\"our company\"" : String) ≠
      " -wikipedia -\"about us\" -\"our company\" -blog -news -\"press release\" -\"company profile\" -investor" := by
  exact ⟨by decide, by decide, by decide, by decide⟩

/-- C2 amended: `searchJobs` classifies via the enhanced query, and the
unconditionally appended quality-indicator clause contains a double quote,
so every request is classified specific; consequently, absent custom
exclusions, the default exclusions appended are always exactly the minimal
set `-wikipedia -"about us" -"our company"`. -/
theorem specificity_amended (query : String) (filters : SJFilters) :
    sjIsSpecificSearch (sjEnhancedQueryFull query filters) filters = true ∧
    sjExclusionSuffix (sjEnhancedQueryFull query filters) filters none true =
      " -wikipedia -\"about us\" -\"our company\"" := by
  have h := sjEnhancedQueryFull_contains_quote query filters
  constructor
  · simp [sjIsSpecificSearch, h]
  · simp [sjExclusionSuffix, sjIsSpecificSearch, h]

/-- C3 counterexample: `buildExclusionQuery` with the non-empty custom list
`["recruiter"]` keeps the default exclusion terms in its output — the
custom list is appended, not a replacement. -/
theorem customExclusions_counterexample :
    buildExclusionQuery ["recruiter"] true =
      " -wikipedia -\"about us\" -\"our company\" -recruiter" ∧
    buildExclusionQuery ["recruiter"] true ≠ " -recruiter" := by
  exact ⟨by decide, by decide⟩

/-- C3 amended: a non-empty custom exclusion list replaces the default
exclusions entirely in `searchJobs` (the appended suffix is exactly the
negated custom terms), but in `buildExclusionQuery` the custom terms are
appended after the default set, whose `-wikipedia` always remains in the
output. -/
theorem customExclusions_amended (customExclusions : List String)
    (h : customExclusions ≠ []) :
    (∀ (searchQuery : String) (filters : SJFilters),
      sjExclusionSuffix searchQuery filters (some customExclusions) true =
        " " ++ joinSep " " (customExclusions.map fun term => "-" ++ term)) ∧
    (∀ isSpecific : Bool,
      jsIncludes (buildExclusionQuery customExclusions isSpecific) "-wikipedia" = true) := by
  have hlen : 0 < customExclusions.length := List.length_pos.mpr h
  constructor
  · intro searchQuery filters
    simp only [sjExclusionSuffix, Option.getD_some]
    rw [if_pos trivial, if_pos hlen]
  · intro isSpecific
    obtain ⟨e, es, rfl⟩ : ∃ e es, customExclusions = e :: es := by
      cases customExclusions with
      | nil => exact absurd rfl h
      | cons e es => exact ⟨e, es, rfl⟩
    have key : ∀ tail : List String,
        jsIncludes (" " ++ joinSep " " ("-wikipedia" :: "-\"about us\"" :: tail))
          "-wikipedia" = true := by
      intro tail
      rw [joinSep_cons_cons]
      apply jsIncludes_append_of_right
      apply jsIncludes_append_of_left
      apply jsIncludes_append_of_left
      exact jsIncludes_self _
    cases isSpecific
    · have hshape : buildExclusionQuery (e :: es) false =
          " " ++ joinSep " " ("-wikipedia" :: "-\"about us\"" :: "-\"our company\"" ::
            "-blog" :: "-news" :: "-\"press release\"" :: "-\"company profile\"" ::
            "-investor" :: (e :: es).map (fun term => "-" ++ term)) := by
        simp [buildExclusionQuery]
      rw [hshape]
      exact key _
    · have hshape : buildExclusionQuery (e :: es) true =
          " " ++ joinSep " " ("-wikipedia" :: "-\"about us\"" :: "-\"our company\"" ::
            (e :: es).map (fun term => "-" ++ term)) := by
        simp [buildExclusionQuery]
      rw [hshape]
      exact key _

theorem customExclusions_amended_witness :
    (["recruiter"] : List String) ≠ [] ∧
    sjExclusionSuffix "any query" {} (some ["recruiter"]) true = " -recruiter" ∧
    jsIncludes (buildExclusionQuery ["recruiter"] false) "-wikipedia" = true := by
  have h := customExclusions_amended ["recruiter"] (by decide)
  exact ⟨by decide, (h.1 "any query" {}).trans (by decide), h.2 false⟩

theorem sjHasJobKeyword_eq (s : String) : sjHasJobKeyword s = hasJobKeywords s := rfl

theorem qualityClause_eq (t : String) :
    t ++ " (" ++ joinSep " OR " (JOB_QUALITY_INDICATORS.take 3) ++ ")" =
      t ++ " (apply OR job description OR requirements)" := by
  rw [String.append_assoc, String.append_assoc]
  exact congrArg (fun z => t ++ z) (by decide)

/-- C5: for every query whose trimmed form contains a job keyword
(case-insensitive), neither builder appends the job-keyword disjunction but
both still append their quality-indicator disjunction; and for every query
whatsoever the quality-indicator disjunction is appended unconditionally,
in `enhanceBaseQuery` (with its default configuration) and in the
enhancement step of `searchJobs` alike. -/
theorem jobKeyword_no_duplication (query : String)
    (h : hasJobKeywords (jsTrim query) = true) :
    enhanceBaseQuery query {} =
      jsTrim query ++ " (apply OR job description OR requirements)" ∧
    sjEnhanceQuery query =
      jsTrim query ++
        " (apply OR \"job description\" OR requirements OR qualifications OR \"years of experience\")" ∧
    (∀ q : String, ∃ p : String,
      enhanceBaseQuery q {} = p ++ " (apply OR job description OR requirements)") ∧
    (∀ q : String, ∃ p : String,
      sjEnhanceQuery q =
        p ++ " (apply OR \"job description\" OR requirements OR qualifications OR \"years of experience\")") := by
  refine ⟨?_, ?_, ?_, ?_⟩
  · simp only [enhanceBaseQuery, h, Bool.not_true, Bool.not_false, if_true, if_false,
      Bool.false_eq_true, ite_false]
    exact qualityClause_eq _
  · simp only [sjEnhanceQuery, sjHasJobKeyword_eq, h, Bool.not_true, Bool.false_eq_true,
      ite_false]
  · intro q
    by_cases hq : hasJobKeywords (jsTrim q) = true
    · refine ⟨jsTrim q, ?_⟩
      simp only [enhanceBaseQuery, hq, Bool.not_true, Bool.false_eq_true, ite_false,
        Bool.not_false, if_true]
      exact qualityClause_eq _
    · rw [Bool.not_eq_true] at hq
      refine ⟨jsTrim q ++ " (" ++
        joinSep " OR " ((JOB_KEYWORDS ++ ({} : QueryBuilderConfig).customJobKeywords).take 5) ++
        ")", ?_⟩
      simp only [enhanceBaseQuery, hq, Bool.not_true, Bool.not_false, if_true, ite_true]
      exact qualityClause_eq _
  · intro q
    by_cases hq : hasJobKeywords (jsTrim q) = true
    · refine ⟨jsTrim q, ?_⟩
      simp only [sjEnhanceQuery, sjHasJobKeyword_eq, hq, Bool.not_true, Bool.false_eq_true,
        ite_false]
    · rw [Bool.not_eq_true] at hq
      refine ⟨jsTrim q ++ " (job OR position OR hiring OR career OR opening)", ?_⟩
      simp only [sjEnhanceQuery, sjHasJobKeyword_eq, hq, Bool.not_false, if_true, ite_true]

theorem jobKeyword_no_duplication_witness :
    hasJobKeywords (jsTrim "software engineer job") = true ∧
    enhanceBaseQuery "software engineer job" {} =
      "software engineer job (apply OR job description OR requirements)" ∧
    sjEnhanceQuery "software engineer job" =
      "software engineer job (apply OR \"job description\" OR requirements OR qualifications OR \"years of experience\")" := by
  have h := jobKeyword_no_duplication "software engineer job" (by decide)
  exact ⟨by decide, h.1.trans (by decide), h.2.1.trans (by decide)⟩

/-- C8: whenever the sanitized form of a query (trimmed, truncated to 200
characters, angle brackets removed) contains an odd number of double-quote
characters, `validateSearchQuery` fails: `isValid` is `false` and the
unbalanced-quotes error is reported. -/
theorem unbalancedQuotes_rejected (query : String)
    (h : (jsRemoveAngles (jsSubstrTo (jsTrim query) 200)).data.count '"' % 2 = 1) :
    (validateSearchQuery query).isValid = false ∧
    "Unbalanced quotes in search query" ∈ (validateSearchQuery query).errors := by
  unfold validateSearchQuery
  split
  · next h0 =>
    exfalso
    have h0' : (jsTrim query).data = [] := by
      refine List.length_eq_zero.mp ?_
      simpa [jsLength] using h0
    rw [show jsSubstrTo (jsTrim query) 200 = ⟨[]⟩ by simp [jsSubstrTo, h0']] at h
    simp [jsRemoveAngles] at h
  · rw [truncStep_eq]
    have hcond : ((jsRemoveAngles (jsSubstrTo (jsTrim query) 200)).data.count '"' % 2 != 0)
        = true := by
      rw [h]
      decide
    exact ⟨by simp [hcond], by simp [hcond]⟩

/-- C10: for every input string, valid or not, the sanitized string
returned by `validateSearchQuery` has length at most 200 and contains no
angle brackets. -/
theorem sanitized_bounded (query : String) :
    jsLength (validateSearchQuery query).sanitized ≤ 200 ∧
    ∀ c ∈ (validateSearchQuery query).sanitized.data, c ≠ '<' ∧ c ≠ '>' := by
  unfold validateSearchQuery
  split
  · constructor
    · show jsLength "" ≤ 200
      decide
    · intro c hc
      have hd : ("" : String).data = [] := rfl
      rw [hd] at hc
      simp at hc
  · rw [truncStep_eq]
    constructor
    · show jsLength (jsRemoveAngles (jsSubstrTo (jsTrim query) 200)) ≤ 200
      unfold jsLength jsRemoveAngles jsSubstrTo
      refine le_trans (List.length_filter_le _ _) ?_
      rw [List.length_take]
      omega
    · intro c hc
      have hc' : c ∈ ((jsTrim query).data.take 200).filter (fun c => !(c == '<' || c == '>')) := hc
      have hp := (List.mem_filter.mp hc').2
      constructor <;> (rintro rfl; simp at hp)

theorem unbalancedQuotes_rejected_witness :
    (jsRemoveAngles (jsSubstrTo (jsTrim "ab\"c") 200)).data.count '"' % 2 = 1 ∧
    ((validateSearchQuery "ab\"c").isValid = false ∧
      "Unbalanced quotes in search query" ∈ (validateSearchQuery "ab\"c").errors) :=
  ⟨by decide, unbalancedQuotes_rejected "ab\"c" (by decide)⟩

theorem filterJobResults_eq (items : List JobResultItem) (q : String) (cfg : FilteringConfig) :
    filterJobResults items q cfg =
      (sortLe (fun a b => decide (b.relevanceScore ≤ a.relevanceScore))
        ((items.map (scoreItem q)).filter (filterKeep cfg (extractQueryTerms q)))).map
        (·.toJobResultItem) := by
  unfold filterJobResults
  split
  · next he =>
    have h : items = [] := List.isEmpty_iff.mp he
    subst h
    rfl
  · rfl

theorem score_of_mem_scored {items : List JobResultItem} {q : String} {r : JobResultWithScore}
    (h : r ∈ items.map (scoreItem q)) :
    r.relevanceScore = calculateRelevanceScore r.toJobResultItem q := by
  rcases List.mem_map.mp h with ⟨i, _, rfl⟩
  rfl

theorem scoreLe_trans : ∀ {a b c : JobResultWithScore},
    decide (b.relevanceScore ≤ a.relevanceScore) = true →
    decide (c.relevanceScore ≤ b.relevanceScore) = true →
    decide (c.relevanceScore ≤ a.relevanceScore) = true := by
  intro a b c hab hbc
  simp only [decide_eq_true_eq] at *
  exact le_trans hbc hab

theorem scoreLe_total : ∀ a b : JobResultWithScore,
    decide (b.relevanceScore ≤ a.relevanceScore) = true ∨
    decide (a.relevanceScore ≤ b.relevanceScore) = true := by
  intro a b
  rcases le_total b.relevanceScore a.relevanceScore with hle | hle
  · exact Or.inl (by simpa)
  · exact Or.inr (by simpa)

/-- C7: the output of `filterJobResults` is ordered by non-increasing
relevance score (the score each returned item would get from
`calculateRelevanceScore`), and every returned item is one of the original
score-free input records — the transient score is stripped before return. -/
theorem output_sorted_and_stripped (items : List JobResultItem) (q : String)
    (cfg : FilteringConfig) :
    (filterJobResults items q cfg).Pairwise
      (fun a b => calculateRelevanceScore b q ≤ calculateRelevanceScore a q) ∧
    ∀ x ∈ filterJobResults items q cfg, x ∈ items := by
  rw [filterJobResults_eq]
  constructor
  · rw [List.pairwise_map]
    have hsorted := pairwise_sortLe
      (fun a b : JobResultWithScore => decide (b.relevanceScore ≤ a.relevanceScore))
      scoreLe_trans scoreLe_total
      ((items.map (scoreItem q)).filter (filterKeep cfg (extractQueryTerms q)))
    refine hsorted.imp_of_mem ?_
    intro a b ha hb hab
    have ha' := score_of_mem_scored (List.mem_of_mem_filter ((sortLe_perm _ _).subset ha))
    have hb' := score_of_mem_scored (List.mem_of_mem_filter ((sortLe_perm _ _).subset hb))
    rw [← ha', ← hb']
    exact of_decide_eq_true hab
  · intro x hx
    rcases List.mem_map.mp hx with ⟨r, hr, rfl⟩
    have hr2 : r ∈ items.map (scoreItem q) :=
      List.mem_of_mem_filter ((sortLe_perm _ _).subset hr)
    rcases List.mem_map.mp hr2 with ⟨i, hi, rfl⟩
    exact hi

/-- C9: `filterJobResults` only selects and reorders: every output item is
an input record (fields untouched), no item's multiplicity grows, and the
output is never longer than the input. -/
theorem filter_frame (items : List JobResultItem) (q : String) (cfg : FilteringConfig) :
    (∀ x : JobResultItem, (filterJobResults items q cfg).count x ≤ items.count x) ∧
    (filterJobResults items q cfg).length ≤ items.length ∧
    ∀ x ∈ filterJobResults items q cfg, x ∈ items := by
  rw [filterJobResults_eq]
  set kept := (items.map (scoreItem q)).filter (filterKeep cfg (extractQueryTerms q)) with hkept
  have hperm : List.Perm
      ((sortLe (fun a b => decide (b.relevanceScore ≤ a.relevanceScore)) kept).map
        (·.toJobResultItem))
      (kept.map (·.toJobResultItem)) :=
    (sortLe_perm _ kept).map _
  have hsub : List.Sublist (kept.map (·.toJobResultItem)) items := by
    have h1 : List.Sublist kept (items.map (scoreItem q)) := List.filter_sublist _
    have h2 := h1.map (·.toJobResultItem)
    rwa [List.map_map, show ((fun r : JobResultWithScore => r.toJobResultItem) ∘ scoreItem q)
      = id from funext fun _ => rfl, List.map_id] at h2
  refine ⟨?_, ?_, ?_⟩
  · intro x
    rw [hperm.count_eq x]
    exact hsub.count_le x
  · rw [hperm.length_eq]
    exact hsub.length_le
  · intro x hx
    exact hsub.subset (hperm.subset hx)

/-- C4 counterexample: the query `the` yields zero extractable terms, so no
extracted query term can appear anywhere, yet in strict mode the item is
still included: `hasRelevantQueryTerms` returns `true` vacuously — the
zero-term skip is NOT disabled in strict mode. -/
theorem strictMode_zeroTerms_counterexample :
    extractQueryTerms "the" = [] ∧
    filterJobResults
      [{ title := some "apply now hiring position",
         snippet := some "qualifications experience salary",
         link := some "linkedin.com/jobs/1" }] "the" { strictMode := true } =
      [{ title := some "apply now hiring position",
         snippet := some "qualifications experience salary",
         link := some "linkedin.com/jobs/1" }] := by
  exact ⟨by decide, by with_unfolding_all decide⟩

/-- C4 amended: with `strictMode = true`, an item is included only if its
relevance score is at least 30 and it passes the query-term check as the
code defines it (`hasRelevantQueryTerms`), which still passes vacuously
when the query yields zero extractable terms — the zero-term skip remains
active in strict mode. -/
theorem strictMode_amended (items : List JobResultItem) (q : String)
    (cfg : FilteringConfig) (hstrict : cfg.strictMode = true) (x : JobResultItem)
    (hx : x ∈ filterJobResults items q cfg) :
    30 ≤ calculateRelevanceScore x q ∧
    hasRelevantQueryTerms
      (jsToLower (x.title.getD "") ++ " " ++ jsToLower (x.snippet.getD ""))
      (jsToLower (x.title.getD "")) (extractQueryTerms q) = true := by
  rw [filterJobResults_eq] at hx
  rcases List.mem_map.mp hx with ⟨r, hr, rfl⟩
  have hrk : r ∈ (items.map (scoreItem q)).filter (filterKeep cfg (extractQueryTerms q)) :=
    (sortLe_perm _ _).subset hr
  have hkeep : filterKeep cfg (extractQueryTerms q) r = true := (List.mem_filter.mp hrk).2
  have hscore : r.relevanceScore = calculateRelevanceScore r.toJobResultItem q :=
    score_of_mem_scored (List.mem_filter.mp hrk).1
  unfold filterKeep at hkeep
  rw [hstrict] at hkeep
  by_cases hqt : hasRelevantQueryTerms
      (jsToLower (r.toJobResultItem.title.getD "") ++ " " ++
        jsToLower (r.toJobResultItem.snippet.getD ""))
      (jsToLower (r.toJobResultItem.title.getD "")) (extractQueryTerms q) = true
  · simp only [hqt, Bool.not_true, Bool.false_and, Bool.false_eq_true, ite_false, if_true,
      ite_true, Bool.true_and, Bool.and_eq_true, decide_eq_true_eq] at hkeep
    exact ⟨hscore ▸ hkeep.2, hqt⟩
  · rw [Bool.not_eq_true] at hqt
    simp [hqt] at hkeep

def seWitnessItem : JobResultItem :=
  { title := some "Software Engineer - Apply Now",
    snippet := some "5+ years experience, qualifications needed",
    link := some "https://linkedin.com/jobs/123" }

theorem strictMode_amended_witness :
    ({ strictMode := true } : FilteringConfig).strictMode = true ∧
    seWitnessItem ∈
      filterJobResults [seWitnessItem] "software engineer" { strictMode := true } ∧
    (30 ≤ calculateRelevanceScore seWitnessItem "software engineer" ∧
      hasRelevantQueryTerms
        (jsToLower (seWitnessItem.title.getD "") ++ " " ++
          jsToLower (seWitnessItem.snippet.getD ""))
        (jsToLower (seWitnessItem.title.getD ""))
        (extractQueryTerms "software engineer") = true) :=
  ⟨rfl, by with_unfolding_all decide,
    strictMode_amended [seWitnessItem] "software engineer" { strictMode := true } rfl
      seWitnessItem (by with_unfolding_all decide)⟩
